import Mathlib

/-!
A verification development for `flexget/manager.py` (the FlexGet process &
scheduler coordinator).  The Python code is embedded shallowly: file-system
state (the lock file) and manager state are explicit record types, the
functions `_read_lock`, `check_lock`, `check_ipc_port`, `acquire_lock`,
`write_lock`, `release_lock`, the `execute` branch of `run_cli_command`,
`daemonize`, `db_cleanup` and the test-database teardown of `shutdown` are
translated into Lean functions over those records, and fallible operations
(`int()` parsing, `raise`, `sys.exit`) are made explicit in the return types.
-/

namespace Flexget

/-! ### Python string/int primitives used by `_read_lock` -/

/-- Python's `str.lstrip(chars)`: removes the longest prefix of characters that
are members of the set `cs` (note: `'PID: '` is a character *set*, not a
prefix). -/
def lstripChars (cs : List Char) : List Char → List Char
  | [] => []
  | c :: rest => if cs.contains c then lstripChars cs rest else c :: rest

/-- Whitespace characters that Python's `int()` strips from both ends of its
argument before parsing. -/
def isPyWs (c : Char) : Bool :=
  c == ' ' || c == '\t' || c == '\n' || c == '\r' || c == '\x0b' || c == '\x0c'

/-- Strip `isPyWs` characters from both ends of a character list. -/
def stripWs (s : List Char) : List Char :=
  ((s.dropWhile isPyWs).reverse.dropWhile isPyWs).reverse

/-- Interpret a nonempty all-digit character list as a natural number;
`none` otherwise. -/
def digitsVal (l : List Char) : Option Nat :=
  if l = [] then none
  else if l.all Char.isDigit then
    some (l.foldl (fun a c => a * 10 + (c.toNat - 48)) 0)
  else none

/-- Python's `int(s)` on a decimal string: strips surrounding whitespace,
accepts an optional sign followed by one or more digits, and raises
`ValueError` (here: `none`) on anything else. -/
def pyInt (s : List Char) : Option Int :=
  match stripWs s with
  | '-' :: rest => (digitsVal rest).map (fun n => -(n : Int))
  | '+' :: rest => (digitsVal rest).map (fun n => (n : Int))
  | t => (digitsVal t).map (fun n => (n : Int))

/-! ### Lock file reading and writing -/

/-- The character set of `lstrip('PID: ')`. -/
def pidStripChars : List Char := ['P', 'I', 'D', ':', ' ']

/-- The character set of `lstrip('Port: ')`. -/
def portStripChars : List Char := ['P', 'o', 'r', 't', ':', ' ']

/-- The lines `write_lock` writes: `'PID: %s\n'` and, when an IPC port is
given, `'Port: %s\n'`. -/
def write_lock_lines (pid : Int) (ipcPort : Option Int) : List String :=
  match ipcPort with
  | none => ["PID: " ++ toString pid ++ "\n"]
  | some p => ["PID: " ++ toString pid ++ "\n", "Port: " ++ toString p ++ "\n"]

/-- Result of `Manager._read_lock`.  The Python function returns `False`
(no effective lock), `True` (lock held by a live foreign process without a
port line) or an `int` port (lock held by a live foreign daemon). -/
inductive LockRead where
  | noLock
  | lockedNoPort
  | lockedPort (port : Int)
deriving Repr, DecidableEq

/-- The state visible to the lock-handling methods of `Manager`: the `_has_lock`
flag, the lock file's contents (`none` when the file is absent; otherwise the
list of lines as `f.readlines()` returns them, trailing newlines included),
the current process id (`os.getpid()`) and the liveness probe
(`pid_exists`). -/
structure MState where
  hasLock : Bool
  lockfile : Option (List String)
  ownPid : Int
  alive : Int → Bool

/-- `int(lines[0].lstrip('PID: '))`, with `int()`'s `ValueError` as `none`. -/
def parsePidLine (l0 : String) : Option Int :=
  pyInt (lstripChars pidStripChars l0.toList)

/-- `port = True; if len(lines) > 1: port = int(lines[1].lstrip('Port: '))`:
the optional port from the remaining lines (`none` models the boolean `True`
placeholder, i.e. no port line), `ValueError` as `.error`. -/
def parsePortLines (rest : List String) : Except Unit (Option Int) :=
  match rest with
  | [] => .ok none
  | l1 :: _ =>
    match pyInt (lstripChars portStripChars l1.toList) with
    | none => .error ()
    | some port => .ok (some port)

/-- `filter(None, f.readlines())`: the non-empty lines of the lock file. -/
def lockLines (rawLines : List String) : List String :=
  rawLines.filter (fun l => !(l == ""))

/-- `Manager._read_lock`: if the lock file is absent return `False`; otherwise
read the non-empty lines (`filter(None, f.readlines())`), parse line 1 as the
holder PID after `lstrip('PID: ')` and, when a second line is present, parse
it as the port after `lstrip('Port: ')` (`int()` failures and a missing first
line raise, modelled as `.error ()`); a record naming the caller's own PID or
a dead PID reads as `False`; otherwise the lock is held, with the port when
one was recorded. -/
def read_lock (st : MState) : Except Unit LockRead :=
  match st.lockfile with
  | none => .ok .noLock
  | some rawLines =>
    match lockLines rawLines with
    | [] => .error ()
    | l0 :: rest =>
      match parsePidLine l0 with
      | none => .error ()
      | some pid =>
        match parsePortLines rest with
        | .error _ => .error ()
        | .ok portOpt =>
          if pid = st.ownPid then .ok .noLock
          else if !(st.alive pid) then .ok .noLock
          else
            match portOpt with
            | none => .ok .lockedNoPort
            | some port => .ok (.lockedPort port)

/-- `Manager.check_lock`: `bool(self._read_lock())`.  Note that Python's
`bool` of an `int` port is `False` exactly when the port is `0`. -/
def check_lock (st : MState) : Except Unit Bool :=
  match read_lock st with
  | .error e => .error e
  | .ok .noLock => .ok false
  | .ok .lockedNoPort => .ok true
  | .ok (.lockedPort p) => .ok (decide (p ≠ 0))

/-- `Manager.check_ipc_port`: returns the recorded port when `_read_lock`
produced one (i.e. was not a `bool`), else `None`. -/
def check_ipc_port (st : MState) : Except Unit (Option Int) :=
  match read_lock st with
  | .error e => .error e
  | .ok (.lockedPort p) => .ok (some p)
  | .ok _ => .ok none

/-- `Manager.release_lock`: remove the lock file when it exists (no-op
otherwise). -/
def release_lock (st : MState) : MState :=
  { st with lockfile := none }

/-! ### `acquire_lock` (the `@contextmanager` split into enter / exit) -/

/-- Outcome of entering the `acquire_lock` context manager (the code before
`yield`). -/
inductive EnterResult where
  | entered (acquired : Bool) (st : MState)
  | contention
  | raised

/-- The code of `acquire_lock` before `yield`: when `_has_lock` is already set
nothing happens (`acquired` stays `False`); otherwise a truthy `check_lock`
causes `sys.exit(1)` (`.contention`), a `check_lock` exception propagates
(`.raised`, `acquired` still `False` so the `finally` releases nothing), and
otherwise `_has_lock` is set, `write_lock()` writes the caller's PID (no
port), and `acquired` becomes `True`. -/
def acquireEnter (st : MState) : EnterResult :=
  if st.hasLock then .entered false st
  else
    match check_lock st with
    | .error _ => .raised
    | .ok true => .contention
    | .ok false =>
      .entered true
        { st with hasLock := true, lockfile := some (write_lock_lines st.ownPid none) }

/-- The `finally` block of `acquire_lock`: when this enter actually acquired
the lock, run `release_lock()` and clear `_has_lock`; otherwise leave the
state untouched. -/
def acquireExit (acquired : Bool) (st : MState) : MState :=
  if acquired then { release_lock st with hasLock := false } else st

/-- Outcome of running a whole `with self.acquire_lock(): body` scope.  The
body is a state transformer that may end in an exception `e` (paired with the
state at the moment it raised). -/
inductive ScopeOutcome (ε : Type) where
  | contention
  | readError
  | completed (st : MState)
  | bodyRaised (e : ε) (st : MState)

/-- `with self.acquire_lock(): body`, with Python's `try`/`finally` semantics:
the `finally` (here `acquireExit`) runs whether the body returns or raises,
and a body exception then propagates. -/
def withLock (st : MState) (body : MState → MState × Option ε) : ScopeOutcome ε :=
  match acquireEnter st with
  | .raised => .readError
  | .contention => .contention
  | .entered acquired st1 =>
    match body st1 with
    | (st2, none) => .completed (acquireExit acquired st2)
    | (st2, some e) => .bodyRaised e (acquireExit acquired st2)

/-! ### Task list and priority sorting -/

/-- The `tasks` section of the loaded configuration: task names paired with
the optional value of their `priority` key.  The list order abstracts the
iteration order of the Python 2 `dict` that `yaml.safe_load` produces —
an implementation-defined (hash-table) order, **not** necessarily the
document's declaration order; theorems quantify over it. -/
abbrev TasksConfig := List (String × Option Int)

/-- `manager.tasks`: the task names (`config.get('tasks', {}).keys()`), in
the mapping's enumeration order. -/
def tasksOf (cfg : TasksConfig) : List String := cfg.map Prod.fst

/-- The sort key of `run_cli_command`:
`manager.config['tasks'][t].get('priority', 65535)`. -/
def taskPriority (cfg : TasksConfig) (t : String) : Int :=
  match cfg.lookup t with
  | some (some p) => p
  | some none => 65535
  | none => 65535

/-- Insert `x` into `l` before the first element whose key is not smaller;
the insertion step of a stable sort. -/
def insertLe (key : α → Int) (x : α) : List α → List α
  | [] => [x]
  | y :: ys => if key x ≤ key y then x :: y :: ys else y :: insertLe key x ys

/-- Stable insertion sort by an integer key: the model of Python's `sorted`
(whose stability is documented). -/
def isort (key : α → Int) : List α → List α
  | [] => []
  | x :: xs => insertLe key x (isort key xs)

/-- `sorted(tasks, key=lambda t: manager.config['tasks'][t].get('priority', 65535))`. -/
def sortTasks (cfg : TasksConfig) : List String :=
  isort (taskPriority cfg) (tasksOf cfg)

/-! ### The `execute` branch of `run_cli_command` -/

/-- The observable effects of the `execute` branch of `run_cli_command`
(invoked without `--tasks`, so the task list is `manager.tasks`): whether the
run delegated to a daemon's IPC port, the `client.execute(task, dict(options))`
calls it issued (task name with the resolved option set `opts`), the task
names locally passed to `scheduler.execute` in order, whether `shutdown` was
reached, whether the run exited on lock contention, and the final manager
state. -/
structure ExecOutcome (σ : Type) where
  delegatedPort : Option Int
  forwarded : List (String × σ)
  executedLocally : List String
  shutdownCalled : Bool
  contention : Bool
  finalState : MState

/-- Python's truthiness test `if port:` on the value `check_ipc_port`
returns: `None` is falsy, and an `int` port is falsy exactly when it is
`0`. -/
def pyTruthyPort : Option Int → Bool
  | none => false
  | some p => p != 0

/-- The `execute` branch of `Manager.run_cli_command` for an invocation
without `--tasks`: sort the config's tasks by priority; then
`port = self.check_ipc_port()` and, when `if port:` is truthy (`None` and
`0` are falsy), forward every task (with its option set) over IPC, call
`shutdown` and return without touching the lock file; otherwise run the
tasks locally under `acquire_lock` (the scheduler body itself raising no
exception) and call `shutdown` inside the scope.  A `_read_lock` parse
exception propagates (`.error`). -/
def run_execute (cfg : TasksConfig) (opts : σ) (st : MState) :
    Except Unit (ExecOutcome σ) :=
  let tasks := sortTasks cfg
  match check_ipc_port st with
  | .error e => .error e
  | .ok port =>
    if pyTruthyPort port then
      .ok { delegatedPort := port
            forwarded := tasks.map (fun t => (t, opts))
            executedLocally := []
            shutdownCalled := true
            contention := false
            finalState := st }
    else
      match acquireEnter st with
      | .raised => .error ()
      | .contention =>
        .ok { delegatedPort := none, forwarded := [], executedLocally := []
              shutdownCalled := false, contention := true, finalState := st }
      | .entered acquired st1 =>
        .ok { delegatedPort := none
              forwarded := []
              executedLocally := tasks
              shutdownCalled := true
              contention := false
              finalState := acquireExit acquired st1 }

/-! ### `daemonize` -/

/-- Possible control-flow outcomes of `Manager.daemonize`, including a
constructor for the fatal unsupported-platform exception (which the code
never produces; it is here so that "raises" is expressible). -/
inductive DaemonizeOutcome where
  | raisedUnsupported
  | loggedErrorAndReturned
  | proceededToFork
deriving Repr, DecidableEq

/-- `Manager.daemonize`: when `sys.platform` starts with `'win'`, log
`'Cannot daemonize on windows'` and `return` (control goes back to the
caller, still attached); on every other platform fall through to the
double-fork protocol. -/
def daemonize (platform : String) : DaemonizeOutcome :=
  if "win".toList.isPrefixOf platform.toList then .loggedErrorAndReturned
  else .proceededToFork

/-! ### `db_cleanup` -/

/-- `DB_CLEANUP_INTERVAL = timedelta(days=7)`, in seconds. -/
def dbCleanupInterval : Int := 7 * 24 * 60 * 60

/-- The `datetime(1900, 1, 1)` default of
`self.persist.get('last_cleanup', ...)`, as seconds relative to the Unix
epoch. -/
def date1900 : Int := -2208988800

/-- The state `db_cleanup` reads and writes: the persisted `last_cleanup`
watermark (absent until the first cleanup) and counters of its observable
side effects — how many times the cleanup (firing `manager.db_cleanup` and
committing the session) ran, and how many times `config_changed` marked
every task's configuration-changed flag. -/
structure CleanupState where
  lastCleanup : Option Int
  cleanupRuns : Nat
  configChangedCalls : Nat
deriving Repr, DecidableEq

/-- `Manager.db_cleanup(force)` at current time `now` (seconds): compute
`expired = persist.get('last_cleanup', datetime(1900,1,1)) < now - DB_CLEANUP_INTERVAL`;
when `force or expired`, fire the `db_cleanup` event and commit (counted by
`cleanupRuns`), call `config_changed()` (counted by `configChangedCalls`)
and persist `last_cleanup = now`; otherwise do nothing. -/
def db_cleanup (force : Bool) (now : Int) (st : CleanupState) : CleanupState :=
  let expired := st.lastCleanup.getD date1900 < now - dbCleanupInterval
  if force || expired then
    { lastCleanup := some now
      cleanupRuns := st.cleanupRuns + 1
      configChangedCalls := st.configChangedCalls + 1 }
  else st

/-! ### Test-database teardown in `shutdown` -/

/-- Python's `needle in haystack` on strings: `needle` occurs as a contiguous
substring of `haystack`. -/
def containsSub (needle : List Char) : List Char → Bool
  | [] => needle.isEmpty
  | c :: rest => needle.isPrefixOf (c :: rest) || containsSub needle rest

/-- Result of the test-database teardown step at the end of
`Manager.shutdown`: whether it raised, and the file set afterwards. -/
structure TeardownResult where
  raised : Bool
  files : List String
deriving Repr, DecidableEq

/-- The end of `Manager.shutdown`: when `options.test` is set, raise
`Exception('trying to delete non test database?')` unless `'test' in
self.db_filename`, and otherwise `os.remove(self.db_filename)`.  `files`
is the set of files on disk, and `in` on strings is substring
containment. -/
def shutdown_db_teardown (test : Bool) (dbFilename : String) (files : List String) :
    TeardownResult :=
  if test then
    if containsSub "test".toList dbFilename.toList then
      { raised := false, files := files.filter (fun f => f ≠ dbFilename) }
    else
      { raised := true, files := files }
  else { raised := false, files := files }

/-! ### Two racing processes running `acquire_lock`'s enter

`acquire_lock` performs two separate file-system operations: `check_lock`
*reads* the lock file, and `write_lock` then *opens the file in truncating
write mode* (`open(self.lockfile, 'w')`), which succeeds whether or not the
file exists.  To examine behaviour under concurrent acquisition by unrelated
operating-system processes, each of those operations is one atomic step of a
process, and a scheduler interleaves the steps of two processes over one
shared lock file. -/

/-- The program counter of one process inside `acquire_lock`'s enter code:
about to `check_lock`; past the check with its result; finished (with or
without the lock); exited on contention; or stopped on a read exception. -/
inductive RacePc where
  | start
  | checked (lockHeld : Bool)
  | done (acquired : Bool)
  | exitedContention
  | raised
deriving Repr, DecidableEq

/-- One racing process: its PID and its program counter. -/
structure RaceProc where
  pid : Int
  pc : RacePc
deriving Repr, DecidableEq

/-- The shared state of the race: the lock file and both processes (neither
has `_has_lock` set initially, as they are unrelated OS processes). -/
structure RaceState where
  lockfile : Option (List String)
  procA : RaceProc
  procB : RaceProc
deriving Repr, DecidableEq

/-- Advance one process by one atomic file-system step of `acquire_lock`'s
enter code, against the shared lock file.  The `check_lock` step reads the
file exactly as `read_lock` does; the `write_lock` step is
`open(self.lockfile, 'w')` — create **or truncate**, never fail — writing
the process's PID line. -/
def raceStep (alive : Int → Bool) (fs : Option (List String)) (p : RaceProc) :
    Option (List String) × RaceProc :=
  match p.pc with
  | .start =>
    match check_lock { hasLock := false, lockfile := fs, ownPid := p.pid, alive := alive } with
    | .error _ => (fs, { p with pc := .raised })
    | .ok b => (fs, { p with pc := .checked b })
  | .checked true => (fs, { p with pc := .exitedContention })
  | .checked false => (some (write_lock_lines p.pid none), { p with pc := .done true })
  | _ => (fs, p)

/-- Run a schedule over the race: `false` steps process A, `true` steps
process B. -/
def runRace (alive : Int → Bool) : List Bool → RaceState → RaceState
  | [], s => s
  | c :: rest, s =>
    if c then
      let (fs, pb) := raceStep alive s.lockfile s.procB
      runRace alive rest { s with lockfile := fs, procB := pb }
    else
      let (fs, pa) := raceStep alive s.lockfile s.procA
      runRace alive rest { s with lockfile := fs, procA := pa }

/-! ### Helper lemmas about the stable insertion sort -/

theorem insertLe_perm (key : α → Int) (x : α) (l : List α) :
    (insertLe key x l).Perm (x :: l) := by
  induction l with
  | nil => simp [insertLe]
  | cons y ys ih =>
    simp only [insertLe]
    split
    · exact List.Perm.refl _
    · exact (ih.cons y).trans (List.Perm.swap x y ys)

theorem isort_perm (key : α → Int) (l : List α) : (isort key l).Perm l := by
  induction l with
  | nil => simp [isort]
  | cons x xs ih =>
    exact ((insertLe_perm key x (isort key xs)).trans (ih.cons x))

theorem insertLe_pairwise (key : α → Int) (x : α) {l : List α}
    (h : l.Pairwise (fun a b => key a ≤ key b)) :
    (insertLe key x l).Pairwise (fun a b => key a ≤ key b) := by
  induction l with
  | nil => simp [insertLe]
  | cons y ys ih =>
    rw [List.pairwise_cons] at h
    obtain ⟨hy, hys⟩ := h
    by_cases hxy : key x ≤ key y
    · simp only [insertLe, if_pos hxy]
      refine List.Pairwise.cons ?_ (List.Pairwise.cons hy hys)
      intro b hb
      rcases List.mem_cons.mp hb with rfl | hb
      · exact hxy
      · exact hxy.trans (hy b hb)
    · simp only [insertLe, if_neg hxy]
      refine List.Pairwise.cons ?_ (ih hys)
      intro b hb
      have hb' : b ∈ x :: ys := (insertLe_perm key x ys).mem_iff.mp hb
      rcases List.mem_cons.mp hb' with rfl | hb'
      · exact le_of_lt (lt_of_not_ge hxy)
      · exact hy b hb'

theorem isort_pairwise (key : α → Int) (l : List α) :
    (isort key l).Pairwise (fun a b => key a ≤ key b) := by
  induction l with
  | nil => simp [isort]
  | cons x xs ih => exact insertLe_pairwise key x ih

theorem insertLe_filter_eqKey (key : α → Int) (x : α) (p : Int) (hx : key x = p)
    (l : List α) :
    (insertLe key x l).filter (fun a => key a == p) =
      x :: l.filter (fun a => key a == p) := by
  induction l with
  | nil => simp [insertLe, hx]
  | cons y ys ih =>
    by_cases hxy : key x ≤ key y
    · simp only [insertLe, if_pos hxy]
      simp [List.filter_cons, hx]
    · simp only [insertLe, if_neg hxy]
      have hy : ¬(key y == p) = true := by
        have hlt : key y < key x := lt_of_not_ge hxy
        simp only [beq_iff_eq]
        omega
      simp only [List.filter_cons]
      rw [if_neg hy, if_neg hy, ih]

theorem insertLe_filter_neKey (key : α → Int) (x : α) (p : Int) (hx : key x ≠ p)
    (l : List α) :
    (insertLe key x l).filter (fun a => key a == p) =
      l.filter (fun a => key a == p) := by
  have hxb : ¬(key x == p) = true := by simpa using hx
  induction l with
  | nil => simp [insertLe, hxb]
  | cons y ys ih =>
    by_cases hxy : key x ≤ key y
    · simp only [insertLe, if_pos hxy]
      simp only [List.filter_cons]
      rw [if_neg hxb]
    · simp only [insertLe, if_neg hxy]
      simp only [List.filter_cons]
      rw [ih]

theorem isort_filter (key : α → Int) (p : Int) (l : List α) :
    (isort key l).filter (fun a => key a == p) = l.filter (fun a => key a == p) := by
  induction l with
  | nil => simp [isort]
  | cons x xs ih =>
    simp only [isort]
    by_cases hx : key x = p
    · rw [insertLe_filter_eqKey key x p hx, ih, List.filter_cons,
        if_pos (by simpa using hx)]
    · rw [insertLe_filter_neKey key x p hx, ih, List.filter_cons,
        if_neg (by simpa using hx)]

/-! ### Claim theorems -/

/-- C2 counterexample: on platform `'win32'` (a non-POSIX target),
`daemonize` logs an error and returns control to the caller; it does not
raise an unsupported-platform error. -/
theorem daemonize_win_counterexample :
    daemonize "win32" = .loggedErrorAndReturned ∧
    daemonize "win32" ≠ .raisedUnsupported := by
  refine ⟨rfl, ?_⟩
  rw [show daemonize "win32" = .loggedErrorAndReturned from rfl]
  decide

/-- C2 (amended): `daemonize` never raises an unsupported-platform error; on
platforms whose name starts with `'win'` it logs `'Cannot daemonize on
windows'` and returns control to the caller with the process still attached,
and on every other platform it proceeds with the double-fork protocol. -/
theorem daemonize_logs_and_returns :
    (∀ platform : String, daemonize platform ≠ .raisedUnsupported) ∧
    (∀ platform : String, "win".toList.isPrefixOf platform.toList = true →
        daemonize platform = .loggedErrorAndReturned) ∧
    (∀ platform : String, "win".toList.isPrefixOf platform.toList = false →
        daemonize platform = .proceededToFork) := by
  refine ⟨fun platform => ?_, fun platform h => ?_, fun platform h => ?_⟩
  · unfold daemonize
    split <;> decide
  · simp only [daemonize, h]
    rfl
  · simp only [daemonize, h]
    rfl

/-- C2 witness: the amended behaviour at the concrete platforms `'win32'`
and `'linux2'`. -/
theorem daemonize_logs_and_returns_witness :
    daemonize "win32" = .loggedErrorAndReturned ∧
    daemonize "linux2" = .proceededToFork :=
  ⟨daemonize_logs_and_returns.2.1 "win32" rfl,
   daemonize_logs_and_returns.2.2 "linux2" rfl⟩

/-- C3: For every lock file whose recorded holder PID is not a live process,
`check_lock` reports unlocked, and a subsequent lock acquisition succeeds,
setting `_has_lock` and writing a lock file with the caller's own PID. -/
theorem stale_lock_recovery (st : MState) (raw : List String) (l0 : String)
    (rest : List String) (p : Int) (q : Option Int)
    (hfile : st.lockfile = some raw)
    (hlines : lockLines raw = l0 :: rest)
    (hpid : parsePidLine l0 = some p)
    (hport : parsePortLines rest = .ok q)
    (hnotself : p ≠ st.ownPid)
    (hdead : st.alive p = false)
    (hnolock : st.hasLock = false) :
    check_lock st = .ok false ∧
    acquireEnter st = .entered true
      { st with hasLock := true, lockfile := some (write_lock_lines st.ownPid none) } := by
  have hread : read_lock st = .ok .noLock := by
    simp [read_lock, hfile, hlines, hpid, hport, hnotself, hdead]
  have hcheck : check_lock st = .ok false := by
    simp [check_lock, hread]
  exact ⟨hcheck, by simp [acquireEnter, hnolock, hcheck]⟩

/-- C3 witness: a lock file recording the dead PID 4242 is read as unlocked
by a caller with PID 100, and the acquisition then writes PID 100. -/
theorem stale_lock_recovery_witness :
    check_lock { hasLock := false, lockfile := some ["PID: 4242\n"],
                 ownPid := 100, alive := fun _ => false } = .ok false ∧
    acquireEnter { hasLock := false, lockfile := some ["PID: 4242\n"],
                   ownPid := 100, alive := fun _ => false } =
      .entered true
        { hasLock := true, lockfile := some (write_lock_lines 100 none),
          ownPid := 100, alive := fun _ => false } :=
  stale_lock_recovery
    { hasLock := false, lockfile := some ["PID: 4242\n"], ownPid := 100,
      alive := fun _ => false }
    ["PID: 4242\n"] "PID: 4242\n" [] 4242 none rfl rfl rfl rfl (by decide) rfl rfl

/-- C7: A lock file recording the caller's own PID is never reported as held
by another process (`_read_lock` returns the falsy no-lock result, so
`check_lock` is false and an acquire does not exit on contention); an inner
`acquire_lock` entered while `_has_lock` is already set leaves the state —
in particular the lock file — completely unchanged and its exit releases
nothing, while the exit of the scope that actually acquired removes the lock
file and clears the flag. -/
theorem nested_lock_scope (st : MState) (raw : List String) (l0 : String)
    (rest : List String) (q : Option Int)
    (hfile : st.lockfile = some raw)
    (hlines : lockLines raw = l0 :: rest)
    (hpid : parsePidLine l0 = some st.ownPid)
    (hport : parsePortLines rest = .ok q) :
    read_lock st = .ok .noLock ∧
    check_lock st = .ok false ∧
    (st.hasLock = true → acquireEnter st = .entered false st) ∧
    (∀ st2 : MState, acquireExit false st2 = st2) ∧
    (∀ st2 : MState, acquireExit true st2 =
        { st2 with hasLock := false, lockfile := none }) := by
  have hread : read_lock st = .ok .noLock := by
    simp [read_lock, hfile, hlines, hpid, hport]
  refine ⟨hread, by simp [check_lock, hread], fun h => by simp [acquireEnter, h],
    fun st2 => by simp [acquireExit], fun st2 => by simp [acquireExit, release_lock]⟩

/-- C7 witness: a caller with PID 100 whose own lock file is on disk and
whose `_has_lock` flag is set. -/
theorem nested_lock_scope_witness :
    read_lock { hasLock := true, lockfile := some ["PID: 100\n"],
                ownPid := 100, alive := fun _ => true } = .ok .noLock ∧
    acquireEnter { hasLock := true, lockfile := some ["PID: 100\n"],
                   ownPid := 100, alive := fun _ => true } =
      .entered false
        { hasLock := true, lockfile := some ["PID: 100\n"],
          ownPid := 100, alive := fun _ => true } :=
  have h := nested_lock_scope
    { hasLock := true, lockfile := some ["PID: 100\n"], ownPid := 100,
      alive := fun _ => true }
    ["PID: 100\n"] "PID: 100\n" [] none rfl rfl rfl rfl
  ⟨h.1, h.2.2.1 rfl⟩

/-- C9: When the lock file exists but its first non-empty line does not
parse as an integer after `lstrip('PID: ')`, or its second line fails to
parse as an integer port after `lstrip('Port: ')`, then `_read_lock`,
`check_lock` and `check_ipc_port` all raise instead of returning a lock
state. -/
theorem lock_read_not_total (st : MState) (raw : List String) (l0 : String)
    (rest : List String)
    (hfile : st.lockfile = some raw)
    (hlines : lockLines raw = l0 :: rest)
    (hbad : parsePidLine l0 = none ∨ parsePortLines rest = .error ()) :
    read_lock st = .error () ∧ check_lock st = .error () ∧
    check_ipc_port st = .error () := by
  have hread : read_lock st = .error () := by
    rcases hbad with h | h
    · simp [read_lock, hfile, hlines, h]
    · cases hp : parsePidLine l0 with
      | none => simp [read_lock, hfile, hlines, hp]
      | some p => simp [read_lock, hfile, hlines, hp, h]
  exact ⟨hread, by simp [check_lock, hread], by simp [check_ipc_port, hread]⟩

/-- C9 witness: a lock file whose only line is `'garbage\n'` makes all three
readers raise. -/
theorem lock_read_not_total_witness :
    read_lock { hasLock := false, lockfile := some ["garbage\n"],
                ownPid := 100, alive := fun _ => true } = .error () ∧
    check_lock { hasLock := false, lockfile := some ["garbage\n"],
                 ownPid := 100, alive := fun _ => true } = .error () ∧
    check_ipc_port { hasLock := false, lockfile := some ["garbage\n"],
                     ownPid := 100, alive := fun _ => true } = .error () :=
  lock_read_not_total
    { hasLock := false, lockfile := some ["garbage\n"], ownPid := 100,
      alive := fun _ => true }
    ["garbage\n"] "garbage\n" [] rfl rfl (Or.inl rfl)

/-- C10: For the outermost `acquire_lock` scope (entered with `_has_lock`
still unset), if the body raises any exception then the `finally` block has
removed the lock file and reset `_has_lock` in the state the exception
propagates with. -/
theorem lock_released_on_body_exception {ε : Type} (st : MState)
    (body : MState → MState × Option ε) (e : ε) (stf : MState)
    (hnolock : st.hasLock = false)
    (h : withLock st body = .bodyRaised e stf) :
    stf.lockfile = none ∧ stf.hasLock = false := by
  unfold withLock at h
  cases hae : acquireEnter st with
  | raised => rw [hae] at h; simp at h
  | contention => rw [hae] at h; simp at h
  | entered acq st1 =>
    rw [hae] at h
    have hacq : acq = true := by
      unfold acquireEnter at hae
      rw [hnolock] at hae
      simp only [Bool.false_eq_true, if_false] at hae
      cases hcl : check_lock st with
      | error u => rw [hcl] at hae; simp at hae
      | ok b =>
        cases b with
        | false =>
          rw [hcl] at hae
          simp at hae
          exact hae.1
        | true => rw [hcl] at hae; simp at hae
    subst hacq
    rcases hb : body st1 with ⟨st2, oe⟩
    cases oe with
    | none => simp only [hb] at h; simp at h
    | some e2 =>
      simp only [hb] at h
      simp only [ScopeOutcome.bodyRaised.injEq] at h
      obtain ⟨-, hst⟩ := h
      rw [← hst]
      simp [acquireExit, release_lock]

/-- C10 witness: a body that raises inside the outermost scope leaves no
lock file and a cleared flag. -/
theorem lock_released_on_body_exception_witness :
    ({ hasLock := false, lockfile := none, ownPid := 100,
       alive := fun _ => true } : MState).lockfile = none ∧
    ({ hasLock := false, lockfile := none, ownPid := 100,
       alive := fun _ => true } : MState).hasLock = false :=
  lock_released_on_body_exception
    { hasLock := false, lockfile := none, ownPid := 100, alive := fun _ => true }
    (fun s => (s, some 0))
    0
    { hasLock := false, lockfile := none, ownPid := 100, alive := fun _ => true }
    rfl rfl

/-- C4 counterexample: a lock file `PID: 4242` / `Port: 0` where PID 4242 is
a live foreign process — a Port line as the claim requires — but `if port:`
is false for the `int` `0`, so the `execute` command forwards nothing and
instead runs the task locally: its acquisition overwrites the other
process's lock file (and its exit removes it), contradicting the claimed
forwarding, the claimed untouched lock file, and the claimed no-own-lock
behaviour for this input. -/
theorem delegation_port_zero_counterexample :
    run_execute [("a", (none : Option Int))] (7 : Nat)
        { hasLock := false, lockfile := some ["PID: 4242\n", "Port: 0\n"],
          ownPid := 100, alive := fun p => p == 4242 } =
      .ok { delegatedPort := none, forwarded := [],
            executedLocally := ["a"], shutdownCalled := true,
            contention := false,
            finalState := { hasLock := false, lockfile := none,
                            ownPid := 100, alive := fun p => p == 4242 } } := by
  rfl

/-- C4 (amended): When the lock is held by another live process that
advertises a *nonzero* port (`if port:` — Python truthiness — is false for
the `int` `0`), the `execute` command forwards exactly one
`client.execute(task, options)` invocation per task (the count of
invocations naming `t` equals the count of `t` among the configured tasks),
each carrying the task name and the resolved option set, leaves the manager
state — in particular the lock file — exactly as it was (no lock file of
its own is written), and then shuts the process down. -/
theorem delegation_forwards {σ : Type} (cfg : TasksConfig) (opts : σ)
    (st : MState) (raw : List String) (l0 : String) (rest : List String)
    (p q : Int)
    (hfile : st.lockfile = some raw)
    (hlines : lockLines raw = l0 :: rest)
    (hpid : parsePidLine l0 = some p)
    (hport : parsePortLines rest = .ok (some q))
    (hq : q ≠ 0)
    (hnotself : p ≠ st.ownPid)
    (halive : st.alive p = true) :
    ∃ o, run_execute cfg opts st = .ok o ∧
      o.delegatedPort = some q ∧
      o.forwarded = (sortTasks cfg).map (fun t => (t, opts)) ∧
      (∀ t, (o.forwarded.map Prod.fst).count t = (tasksOf cfg).count t) ∧
      o.finalState = st ∧
      o.shutdownCalled = true := by
  have hread : read_lock st = .ok (.lockedPort q) := by
    simp [read_lock, hfile, hlines, hpid, hport, hnotself, halive]
  have hipc : check_ipc_port st = .ok (some q) := by
    simp [check_ipc_port, hread]
  have htruthy : pyTruthyPort (some q) = true := by
    simp [pyTruthyPort, hq]
  refine ⟨{ delegatedPort := some q,
            forwarded := (sortTasks cfg).map (fun t => (t, opts)),
            executedLocally := [], shutdownCalled := true, contention := false,
            finalState := st },
    by simp [run_execute, hipc, htruthy], rfl, rfl, ?_, rfl, rfl⟩
  intro t
  have hmap : ((sortTasks cfg).map (fun t => (t, opts))).map Prod.fst
      = sortTasks cfg := by
    simp [List.map_map, Function.comp_def]
  rw [hmap]
  exact (isort_perm (taskPriority cfg) (tasksOf cfg)).count_eq t

/-- C4 witness: a lock file `PID: 4242` / `Port: 6000` with PID 4242 alive
and tasks `a`, `b`: both are forwarded with their options, the state is
untouched, and the process shuts down. -/
theorem delegation_forwards_witness :
    ∃ o, run_execute [("a", (none : Option Int)), ("b", none)] (7 : Nat)
        { hasLock := false, lockfile := some ["PID: 4242\n", "Port: 6000\n"],
          ownPid := 100, alive := fun p => p == 4242 } = .ok o ∧
      o.delegatedPort = some 6000 ∧
      o.forwarded = (sortTasks [("a", (none : Option Int)), ("b", none)]).map
        (fun t => (t, 7)) ∧
      (∀ t, (o.forwarded.map Prod.fst).count t
          = (tasksOf [("a", (none : Option Int)), ("b", none)]).count t) ∧
      o.finalState =
        { hasLock := false, lockfile := some ["PID: 4242\n", "Port: 6000\n"],
          ownPid := 100, alive := fun p => p == 4242 } ∧
      o.shutdownCalled = true :=
  delegation_forwards [("a", none), ("b", none)] 7
    { hasLock := false, lockfile := some ["PID: 4242\n", "Port: 6000\n"],
      ownPid := 100, alive := fun p => p == 4242 }
    ["PID: 4242\n", "Port: 6000\n"] "PID: 4242\n" ["Port: 6000\n"] 4242 6000
    rfl rfl rfl rfl (by decide) (by decide) rfl

/-- C5: `db_cleanup(force)` runs its side effect (firing the cleanup hook
with a commit, marking every task's configuration-changed flag, and
advancing the persisted `last_cleanup` watermark to the current time) if and
only if `force` is true or more than 7 days have passed since the watermark
(with `datetime(1900,1,1)` as the default); hence two non-forced calls
within the 7-day interval run it exactly once, and two forced calls at the
same instant run it twice. -/
theorem db_cleanup_interval_spec :
    (∀ (force : Bool) (now : Int) (st : CleanupState),
      ((force = true ∨ st.lastCleanup.getD date1900 < now - dbCleanupInterval) →
        db_cleanup force now st =
          { lastCleanup := some now, cleanupRuns := st.cleanupRuns + 1,
            configChangedCalls := st.configChangedCalls + 1 }) ∧
      (force = false → ¬ st.lastCleanup.getD date1900 < now - dbCleanupInterval →
        db_cleanup force now st = st)) ∧
    (∀ (st : CleanupState) (t1 t2 : Int),
      st.lastCleanup.getD date1900 < t1 - dbCleanupInterval →
      t2 - t1 ≤ dbCleanupInterval →
      db_cleanup false t2 (db_cleanup false t1 st) =
        { lastCleanup := some t1, cleanupRuns := st.cleanupRuns + 1,
          configChangedCalls := st.configChangedCalls + 1 }) ∧
    (∀ (st : CleanupState) (t : Int),
      (db_cleanup true t (db_cleanup true t st)).cleanupRuns
        = st.cleanupRuns + 2) := by
  have hrun : ∀ (force : Bool) (now : Int) (st : CleanupState),
      (force = true ∨ st.lastCleanup.getD date1900 < now - dbCleanupInterval) →
      db_cleanup force now st =
        { lastCleanup := some now, cleanupRuns := st.cleanupRuns + 1,
          configChangedCalls := st.configChangedCalls + 1 } := by
    intro force now st h
    rcases h with h | h
    · subst h
      simp [db_cleanup]
    · simp [db_cleanup, h]
  have hskip : ∀ (now : Int) (st : CleanupState),
      ¬ st.lastCleanup.getD date1900 < now - dbCleanupInterval →
      db_cleanup false now st = st := by
    intro now st h
    simp [db_cleanup, h]
  refine ⟨fun force now st => ⟨hrun force now st,
      fun hf h => by subst hf; exact hskip now st h⟩,
    ?_, ?_⟩
  · intro st t1 t2 h1 h2
    rw [hrun false t1 st (Or.inr h1)]
    exact hskip t2 _ (by simp; omega)
  · intro st t
    rw [hrun true t st (Or.inl rfl), hrun true t _ (Or.inl rfl)]

/-- C5 witness: starting from a never-cleaned state, a non-forced call at
time 0 runs the cleanup and a second non-forced call 6 days later does not;
two forced calls at time 0 run it twice. -/
theorem db_cleanup_interval_spec_witness :
    db_cleanup false (6 * 24 * 60 * 60)
        (db_cleanup false 0
          { lastCleanup := none, cleanupRuns := 0, configChangedCalls := 0 }) =
      { lastCleanup := some 0, cleanupRuns := 1, configChangedCalls := 1 } ∧
    (db_cleanup true 0 (db_cleanup true 0
        { lastCleanup := none, cleanupRuns := 0,
          configChangedCalls := 0 })).cleanupRuns = 2 :=
  ⟨db_cleanup_interval_spec.2.1
      { lastCleanup := none, cleanupRuns := 0, configChangedCalls := 0 }
      0 (6 * 24 * 60 * 60) (by decide) (by decide),
   db_cleanup_interval_spec.2.2
      { lastCleanup := none, cleanupRuns := 0, configChangedCalls := 0 } 0⟩

/-- C6: On shutdown in test mode, a database filename that does not contain
the substring `'test'` makes the manager raise without deleting the file;
a filename that does contain it is removed from disk (and no other file
is). -/
theorem test_db_teardown_safety (dbFilename : String) (files : List String) :
    (containsSub "test".toList dbFilename.toList = false →
      shutdown_db_teardown true dbFilename files =
        { raised := true, files := files }) ∧
    (containsSub "test".toList dbFilename.toList = true →
      (shutdown_db_teardown true dbFilename files).raised = false ∧
      dbFilename ∉ (shutdown_db_teardown true dbFilename files).files ∧
      ∀ f, f ≠ dbFilename →
        ((f ∈ (shutdown_db_teardown true dbFilename files).files) ↔ f ∈ files)) := by
  constructor
  · intro h
    simp only [shutdown_db_teardown, h]
    rfl
  · intro h
    simp only [shutdown_db_teardown, h]
    refine ⟨rfl, ?_, ?_⟩
    · simp [List.mem_filter]
    · intro f hf
      simp [List.mem_filter, hf]

/-- C6 witness: `'db-config.sqlite'` (no `'test'` marker) raises and the
file set is untouched; `'test-config.sqlite'` is removed after the run. -/
theorem test_db_teardown_safety_witness :
    shutdown_db_teardown true "db-config.sqlite" ["db-config.sqlite"] =
      { raised := true, files := ["db-config.sqlite"] } ∧
    ((shutdown_db_teardown true "test-config.sqlite" ["test-config.sqlite"]).raised
        = false ∧
      "test-config.sqlite" ∉
        (shutdown_db_teardown true "test-config.sqlite" ["test-config.sqlite"]).files) :=
  have h2 := (test_db_teardown_safety "test-config.sqlite"
    ["test-config.sqlite"]).2 (by rfl)
  ⟨(test_db_teardown_safety "db-config.sqlite" ["db-config.sqlite"]).1 (by rfl),
   h2.1, h2.2.1⟩

/-- C8 counterexample: lock acquisition is *not* an atomic create-or-fail.
With no lock file present, two unrelated processes (PIDs 1 and 2) that
interleave `acquire_lock`'s two file-system operations — the `check_lock`
read and the truncating `open(lockfile, 'w')` write — as
check₁, check₂, write₁, write₂ **both** complete acquisition, and the lock
file ends up recording only PID 2; an atomic create-or-fail acquisition
would have made one of them fail. -/
theorem lock_acquire_race_counterexample :
    (runRace (fun _ => true) [false, true, false, true]
        { lockfile := none,
          procA := { pid := 1, pc := .start },
          procB := { pid := 2, pc := .start } }) =
      { lockfile := some (write_lock_lines 2 none),
        procA := { pid := 1, pc := .done true },
        procB := { pid := 2, pc := .done true } } := by
  rfl

/-- C8 (amended): lock acquisition is a separate existence check
(`check_lock`) followed by a create-or-truncate write (`open(lockfile,
'w')`), not an atomic create-or-fail; for any two PIDs, when both processes
pass the check before either writes, both acquire the lock and the second
write silently overwrites the first, violating mutual exclusion. -/
theorem lock_acquire_check_then_write (p1 p2 : Int) (alive : Int → Bool) :
    (runRace alive [false, true, false, true]
        { lockfile := none,
          procA := { pid := p1, pc := .start },
          procB := { pid := p2, pc := .start } }) =
      { lockfile := some (write_lock_lines p2 none),
        procA := { pid := p1, pc := .done true },
        procB := { pid := p2, pc := .done true } } := by
  rfl

end Flexget
